import Mathlib

/-!
Shallow embedding of the rustfall falling-sand engine
(crates/engine: pixel model, band movement resolver, banded tick
scheduler; plus the legacy src/engine revision where a claim refers
to it), together with theorems settling the specification claims.
Machine integers: `u8` fields are `Nat` with additions reduced
mod 256 where the source adds unguardedly; `i8` densities are `Int`;
`usize` is `Nat`, with checked (debug-semantics) subtraction made
explicit where the source subtracts without a guard.
-/

namespace Rustfall

/-- Category (and density) of a pixel, from `PixelType` in
`crates/engine/src/pixel/mod.rs`. -/
inductive PixelType where
  | gas (d : Int)
  | liquid (d : Int)
  | solid (d : Int)
  | wall
  | void
deriving DecidableEq, Repr

/-- Density accessor, from `PixelType::density`. -/
def PixelType.density : PixelType → Option Int
  | .gas d => some d
  | .liquid d => some d
  | .solid d => some d
  | _ => none

/-- The 8-way direction enum, from `Direction` in
`crates/engine/src/pixel/mod.rs`. -/
inductive Direction where
  | up
  | down
  | left
  | right
  | upLeft
  | upRight
  | downLeft
  | downRight
deriving DecidableEq, Repr

/-- The closed material variant set, from `PixelInstance` in
`crates/engine/src/pixel/mod.rs` (payloads are each variant's
private numeric fields; `Ice`, `Rock`, `Sand`, `EternalFire` carry
the fields of their source structs). -/
inductive PixelInstance where
  | steam (temp : Nat)
  | sand
  | rock
  | water (temp : Nat)
  | ice (temp : Nat)
  | fire (life : Nat)
  | eternalFire
  | wood (temp : Nat) (life : Nat)
  | void (burn : Bool)
deriving DecidableEq, Repr

/-- Wrapping `u8` addition (Rust release semantics; all guarded call
sites stay far below 256). -/
def u8add (a b : Nat) : Nat := (a + b) % 256

/-- Category of each variant, from the `pixel_type` impls in
`crates/engine/src/pixel/instance/*.rs` (Wood is `Solid(9)` once
`life <= 30`, else `Wall`). -/
def PixelInstance.pixel_type : PixelInstance → PixelType
  | .steam _ => .gas (-10)
  | .sand => .solid 50
  | .rock => .wall
  | .water _ => .liquid 10
  | .ice _ => .wall
  | .fire _ => .gas (-1)
  | .eternalFire => .wall
  | .wood _ life => if life ≤ 30 then .solid 9 else .wall
  | .void _ => .void

def PixelInstance.is_burning_water (t : Nat) : Prop := 30 ≤ t

/-- Phase-transition step, from the `update` impls: the Rust
`update(&mut self) -> Option<PixelInstance>` both mutates `self`
(Fire and Wood decrement `life`) and may return a replacement, so
the embedding returns the mutated self together with the optional
replacement. -/
def PixelInstance.update : PixelInstance → PixelInstance × Option PixelInstance
  | .water t =>
      (.water t,
        if 30 ≤ t then some (.steam 200)
        else if t ≤ 10 then some (.ice 0)
        else none)
  | .steam t => (.steam t, if t < 10 then some (.water 20) else none)
  | .ice t => (.ice t, if 99 ≤ t then some (.water 20) else none)
  | .fire l =>
      let l2 := l - 1
      (.fire l2, if l2 = 0 then some (.void false) else none)
  | .wood t l =>
      let l2 := if 99 ≤ t ∧ 0 < l then l - 1 else l
      (.wood t l2, if l2 = 0 then some (.void false) else none)
  | .void b => (.void b, if b then some (.fire 60) else none)
  | p => (p, none)

/-- Neighbor-interaction reducer, from the `interact` impls in
`crates/engine/src/pixel/instance/*.rs` (and the identical-body
`ice.rs` of the same crate for Ice): mutates only the receiver's
private fields. -/
def PixelInstance.interact : PixelInstance → PixelInstance → PixelInstance
  | .water t, .fire _ => if ¬ 30 ≤ t then .water (u8add t 2) else .water t
  | .water t, .eternalFire => if ¬ 30 ≤ t then .water (u8add t 2) else .water t
  | .water t, .wood wt _ =>
      if 99 ≤ wt ∧ ¬ 30 ≤ t then .water (u8add t 2) else .water t
  | .water t, .ice _ => if ¬ t ≤ 10 then .water (t - 2) else .water t
  | .steam t, .water _ => if 0 < t then .steam (t - 1) else .steam t
  | .steam t, .steam _ => if 0 < t then .steam (t - 1) else .steam t
  | .steam t, .ice _ => if 1 < t then .steam (t - 2) else .steam 0
  | .ice t, .fire _ => if ¬ 99 ≤ t then .ice (u8add t 20) else .ice t
  | .ice t, .eternalFire => if ¬ 99 ≤ t then .ice (u8add t 20) else .ice t
  | .ice t, .water _ => if ¬ 99 ≤ t then .ice (u8add t 10) else .ice t
  | .ice t, .steam _ => if ¬ 99 ≤ t then .ice (u8add t 15) else .ice t
  | .wood t l, .water _ => if 99 ≤ t then .wood (t - 20) l else .wood t l
  | .wood t l, .ice _ => if 99 ≤ t then .wood (t - 30) l else .wood t l
  | .wood t l, .fire _ => if ¬ 99 ≤ t then .wood (u8add t 20) l else .wood t l
  | .wood t l, .eternalFire =>
      if ¬ 99 ≤ t then .wood (u8add t 20) l else .wood t l
  | .wood t l, .wood wt _ =>
      if 99 ≤ wt ∧ ¬ 99 ≤ t then .wood (u8add t 20) l else .wood t l
  | .void _, .eternalFire => .void true
  | p, _ => p

/-- One grid cell: a material plus the transient moved flag, from
`Pixel`/`PixelContainer` in the engine crate. -/
structure PixelContainer where
  pixel : PixelInstance
  is_moved : Bool
deriving DecidableEq, Repr

/-- Fresh container, from `PixelContainer::new`: the moved flag
starts false. -/
def PixelContainer.new (p : PixelInstance) : PixelContainer := ⟨p, false⟩

/-- Movement legality, from `Pixel::can_swap_with` in
`crates/engine/src/pixel/mod.rs` lines 143-165: no own density means
no move; a target already moved this tick is refused; otherwise the
target's category decides, with `reverse` being the sign of the own
density and the triple match copied from the source. -/
def can_swap_with (self target : PixelContainer) : Bool :=
  match self.pixel.pixel_type.density with
  | none => false
  | some density =>
    if target.is_moved then false
    else
      let reverse : Bool := density < 0
      match target.pixel.pixel_type with
      | .solid td | .gas td | .liquid td =>
          match decide (density = td), decide (density > td), reverse with
          | true, _, _ => false
          | false, true, false => true
          | false, false, true => true
          | _, _, _ => false
      | .wall => false
      | .void => true

/-- Legality closure of the legacy engine, from `check_density`
inside `BasicPixel::tick_move` in `src/engine/pixel/mod.rs` lines
99-112: absent target is no move, otherwise the target's category
decides under the caller-chosen `reverse`, returning the probed
direction on success. -/
def check_density (density : Int) (target : Option PixelType)
    (dir : Direction) (reverse : Bool) : Option Direction :=
  match target with
  | none => none
  | some t =>
    match t with
    | .solid td | .gas td | .liquid td =>
        match decide (density = td), decide (density > td), reverse with
        | true, _, _ => none
        | false, true, false => some dir
        | false, false, true => some dir
        | _, _, _ => none
    | .wall => none
    | .void => some dir

/-- Coordinates are `(x, y)` pairs of `usize`. -/
abbrev Coordinate := Nat × Nat

/-- The grid: a rectangular matrix of cells addressed `[x][y]`, plus
the per-tick horizontal scan direction, from `Sandbox` in
`crates/engine/src/sandbox/sandbox.rs` (the `Vec<Vec<_>>` becomes a
total function; only coordinates inside the bounds are meaningful). -/
structure Sandbox where
  width : Nat
  height : Nat
  cells : Coordinate → PixelContainer
  ltr : Bool

/-- Band width constant, from `VIRTUAL_COLUMNIZED_WIDTH` in
`crates/engine/src/sandbox/sandbox.rs`. -/
def VIRTUAL_COLUMNIZED_WIDTH : Nat := 5

/-- Cell lookup over a column slice `[lo, lo+len)`, from
`SandboxControl::get_pixel` in `crates/engine/src/sandbox/mod.rs`;
`VirtualBox` implements the same trait over a slice of columns, so
the slice bounds are explicit and the whole grid is the slice
`lo = 0, len = width`. -/
def get_pixel (g : Sandbox) (lo len : Nat) (c : Coordinate) :
    Option PixelContainer :=
  if lo ≤ c.1 ∧ c.1 < lo + len ∧ c.2 < g.height then some (g.cells c)
  else none

/-- Guarded neighbor coordinate over a column slice, from
`SandboxControl::get_neighbour_coordinates` in
`crates/engine/src/sandbox/mod.rs` lines 28-47: every edge guard is
tested before the corresponding subtraction, and a failed guard
yields `none` (the absent marker). Slice-relative column guards
`x > 0` and `x < width - 1` become `x > lo` and `x < lo + len - 1`. -/
def get_neighbour_coordinates (lo len h : Nat) (c : Coordinate)
    (dir : Direction) : Option Coordinate :=
  let x := c.1
  let y := c.2
  match dir with
  | .up => if 0 < y then some (x, y - 1) else none
  | .down => if y < h - 1 then some (x, y + 1) else none
  | .left => if lo < x then some (x - 1, y) else none
  | .right => if x < lo + len - 1 then some (x + 1, y) else none
  | .upLeft => if 0 < y ∧ lo < x then some (x - 1, y - 1) else none
  | .upRight =>
      if 0 < y ∧ x < lo + len - 1 then some (x + 1, y - 1) else none
  | .downLeft =>
      if y < h - 1 ∧ lo < x then some (x - 1, y + 1) else none
  | .downRight =>
      if y < h - 1 ∧ x < lo + len - 1 then some (x + 1, y + 1) else none

/-- Neighbor cell lookup, from `SandboxControl::get_neighbour_pixel`
in `crates/engine/src/sandbox/mod.rs` lines 49-56. -/
def get_neighbour_pixel (g : Sandbox) (lo len : Nat) (c : Coordinate)
    (dir : Direction) : Option (Coordinate × PixelContainer) :=
  (get_neighbour_coordinates lo len g.height c dir).bind fun nc =>
    (get_pixel g lo len nc).map fun p => (nc, p)

/-- Unconditional cell exchange, from `SandboxControl::swap_pixels`
in `crates/engine/src/sandbox/mod.rs` lines 58-72: both containers
(material and moved flag) are exchanged whole when both coordinates
are inside the slice, otherwise nothing happens. -/
def swap_pixels (g : Sandbox) (lo len : Nat) (c1 c2 : Coordinate) :
    Sandbox :=
  match get_pixel g lo len c1, get_pixel g lo len c2 with
  | some p1, some p2 =>
      { g with cells := fun e =>
          if e = c1 then p2 else if e = c2 then p1 else g.cells e }
  | _, _ => g

/-- Flag write at one cell, from `Pixel::mark_is_moved` applied via
`get_pixel_mut(..).unwrap()` in `VirtualBox::tick` (the call sites
only use coordinates inside the slice). -/
def mark_moved_at (g : Sandbox) (c : Coordinate) (b : Bool) : Sandbox :=
  { g with cells := fun e =>
      if e = c then ⟨(g.cells c).pixel, b⟩ else g.cells e }

/-- Coordinate arithmetic of the legacy engine with debug (checked)
subtraction semantics, from `Sandbox::get_neighbour_coordinates` in
`src/engine/sandbox.rs` lines 72-83: the source subtracts from
`usize` coordinates with no guard and returns a bare pair, so
`none` here marks an arithmetic underflow fault, not an absent
neighbor. -/
def legacy_get_neighbour_coordinates (x y : Nat) (dir : Direction) :
    Option Coordinate :=
  match dir with
  | .up => if y = 0 then none else some (x, y - 1)
  | .down => some (x, y + 1)
  | .left => if x = 0 then none else some (x - 1, y)
  | .right => some (x + 1, y)
  | .upLeft => if y = 0 ∨ x = 0 then none else some (x - 1, y - 1)
  | .upRight => if y = 0 then none else some (x + 1, y - 1)
  | .downLeft => if x = 0 then none else some (x - 1, y + 1)
  | .downRight => some (x + 1, y + 1)

/-- Result of a legacy neighbor query: an arithmetic fault, an
absent neighbor, or a found cell. -/
inductive QueryResult (α : Type) where
  | fault
  | absent
  | found (a : α)
deriving DecidableEq, Repr

/-- Legacy neighbor lookup, from `Sandbox::get_neighbour_pixel` in
`src/engine/sandbox.rs` lines 85-96: the bounds test
(`is_coordinate_in_bound`) runs only after
`get_neighbour_coordinates` has already performed its unguarded
subtraction. -/
def legacy_get_neighbour_pixel (w h : Nat)
    (cells : Coordinate → PixelContainer) (x y : Nat) (dir : Direction) :
    QueryResult PixelContainer :=
  match legacy_get_neighbour_coordinates x y dir with
  | none => .fault
  | some nc =>
      if nc.1 < w ∧ nc.2 < h then .found (cells nc) else .absent

/-- Down-first candidate lists, from `Direction::down_directions` in
`crates/engine/src/pixel/mod.rs` lines 69-87. -/
def down_directions_pool : List (List Direction) :=
  [[.down, .downLeft, .downRight], [.down, .downRight, .downLeft]]

/-- Left/right candidate lists, from
`Direction::horizontal_directions` in `crates/engine/src/pixel/mod.rs`
lines 90-104. -/
def horizontal_directions_pool : List (List Direction) :=
  [[.left, .right], [.right, .left]]

/-- Upward candidate lists, from `Direction::up_directions` in
`crates/engine/src/pixel/mod.rs` lines 107-125. -/
def up_directions_pool : List (List Direction) :=
  [[.up, .upLeft, .upRight], [.up, .upRight, .upLeft],
   [.upLeft, .upRight, .up], [.upLeft, .up, .upRight],
   [.upRight, .upLeft, .up], [.upRight, .up, .upLeft]]

/-- Modelled from the spec: the per-category candidate-direction
pools of §4.1/§4.4 (the shipped instance-level `tick_move` that
`VirtualBox::tick` calls is missing from the source tree; only its
callers and the direction-pool constructors above are present).
Solid draws a down-first list; Liquid a down-first list followed by
a left/right list; Gas an upward list followed by a left/right
list; Wall and Void have no candidates. -/
def candidate_pool : PixelType → List (List Direction)
  | .solid _ => down_directions_pool
  | .liquid _ =>
      down_directions_pool.flatMap fun d =>
        horizontal_directions_pool.map fun h2 => d ++ h2
  | .gas _ =>
      up_directions_pool.flatMap fun u =>
        horizontal_directions_pool.map fun h2 => u ++ h2
  | _ => []

/-- Modelled from the spec: one movement check of §4.4 — sample one
candidate list from the category's pool with the rng draw `k`, take
the first direction whose target passes `can_swap_with` (reached
through `get_neighbour_pixel`, so absent neighbors never pass), and
return that target's coordinate, as the shipped `tick_move` returns
`Option<Coordinate>` to `VirtualBox::tick`. -/
def tick_move (g : Sandbox) (lo len : Nat) (c : Coordinate) (k : Nat) :
    Option Coordinate :=
  let self := g.cells c
  let pool := candidate_pool self.pixel.pixel_type
  match pool with
  | [] => none
  | _ =>
    let dirs := pool.getD (k % pool.length) []
    dirs.findSome? fun dir =>
      match get_neighbour_pixel g lo len c dir with
      | some (nc, p) => if can_swap_with self p then some nc else none
      | none => none

/-- Record of one performed swap: source cell, destination cell, and
whether the destination held material (was not `Void`) at that
moment. -/
structure SwapRec where
  src : Coordinate
  dst : Coordinate
  dstNonVoid : Bool
deriving DecidableEq, Repr

/-- Column visit order of a band resolution, from the `x_range` of
`VirtualBox::tick` in `crates/engine/src/sandbox/virtualbox.rs`
lines 53-56 together with the width clamp of `VirtualBox::new`
(`virtual_width.min(len - offset)`): the resolved columns are
`[lo+off, lo+off+vw')`, left-to-right or reversed. -/
def band_xs (lo len off vw : Nat) (ltr : Bool) : List Nat :=
  let vw2 := min vw (len - off)
  if ltr then List.range' (lo + off) vw2
  else (List.range' (lo + off) vw2).reverse

/-- Cell visit order of a band resolution, from the nested loops of
`VirtualBox::tick` lines 57-58: rows from `height - 1` down to `0`,
and within each row the columns of `band_xs`. -/
def band_coords (lo len off vw h : Nat) (ltr : Bool) : List Coordinate :=
  ((List.range h).reverse).flatMap fun y =>
    (band_xs lo len off vw ltr).map fun x => (x, y)

/-- Loop body of the band resolver for one visited cell, from
`VirtualBox::tick` lines 59-85: skip an out-of-slice lookup, a
`Void` cell, or a cell already moved; otherwise run one movement
check (consuming one rng draw), and on success mark the source
moved, mark the destination moved only if it is not `Void`, swap
the two cells, and record the swap. -/
def band_step (lo len : Nat) (rng : Nat → Nat)
    (st : Sandbox × Nat × List SwapRec) (c : Coordinate) :
    Sandbox × Nat × List SwapRec :=
  match get_pixel st.1 lo len c with
  | none => st
  | some p =>
    if p.pixel.pixel_type = .void then st
    else if p.is_moved then st
    else
      match tick_move st.1 lo len c (rng st.2.1) with
      | none => (st.1, st.2.1 + 1, st.2.2)
      | some d =>
        (swap_pixels
          (if ((mark_moved_at st.1 c true).cells d).pixel.pixel_type ≠ .void
            then mark_moved_at (mark_moved_at st.1 c true) d true
            else mark_moved_at st.1 c true) lo len c d,
         st.2.1 + 1,
         st.2.2 ++
           [⟨c, d,
             decide
               (((mark_moved_at st.1 c true).cells d).pixel.pixel_type ≠
                 .void)⟩])

/-- Full band resolution with its swap trace, from
`VirtualBox::tick` in `crates/engine/src/sandbox/virtualbox.rs`
lines 50-88 (`rng` is the resolver's own thread rng as a drawn
stream). -/
def virtual_box_tick_aux (lo len off vw : Nat) (ltr : Bool)
    (rng : Nat → Nat) (g : Sandbox) : Sandbox × Nat × List SwapRec :=
  (band_coords lo len off vw g.height ltr).foldl (band_step lo len rng)
    (g, 0, [])

/-- Band resolution, grid part only. -/
def virtual_box_tick (lo len off vw : Nat) (ltr : Bool)
    (rng : Nat → Nat) (g : Sandbox) : Sandbox :=
  (virtual_box_tick_aux lo len off vw ltr rng g).1

/-- One worker unit of the banded scheduler: the column slice
`[lo, lo+len)` handed to a `VirtualBox`, with the resolver's
relative offset and virtual width. -/
structure Band where
  lo : Nat
  len : Nat
  off : Nat
  vw : Nat
deriving DecidableEq, Repr

/-- Regular worker slices of one phase, from the
`par_chunks_mut(4W).filter_map(len > W)` pattern of
`Sandbox::exec_pixels_movement`: cut `[start, w)` into chunks of
`4W`, keep those wider than `W`, and resolve columns `[W, 3W)` of
each. -/
def chunk_bands (start w : Nat) : List Band :=
  (List.range
      ((w - start + 4 * VIRTUAL_COLUMNIZED_WIDTH - 1) /
        (4 * VIRTUAL_COLUMNIZED_WIDTH))).filterMap fun k =>
    if VIRTUAL_COLUMNIZED_WIDTH <
        min (4 * VIRTUAL_COLUMNIZED_WIDTH)
          (w - (start + 4 * VIRTUAL_COLUMNIZED_WIDTH * k)) then
      some ⟨start + 4 * VIRTUAL_COLUMNIZED_WIDTH * k,
        min (4 * VIRTUAL_COLUMNIZED_WIDTH)
          (w - (start + 4 * VIRTUAL_COLUMNIZED_WIDTH * k)),
        VIRTUAL_COLUMNIZED_WIDTH, 2 * VIRTUAL_COLUMNIZED_WIDTH⟩
    else none

/-- Shape of one movement pass, from the control flow of
`Sandbox::exec_pixels_movement` in
`crates/engine/src/sandbox/sandbox.rs` lines 61-121: a narrow grid
(`width <= 4W`) gets a single whole-grid resolver; otherwise phase 1
is the leading slice `[0, o+W)` resolving its first `o` columns
followed by regular `4W` chunks, and phase 2 re-splits at `o+3W`
(the leading slice resolving `[o, o+2W)`) followed by regular `4W`
chunks; `split_at_mut(o + 3W)` aborts the process when `o + 3W`
exceeds the width. -/
inductive MovePlan where
  | whole (b : Band)
  | banded (phase1 phase2 : List Band)
  | abort
deriving DecidableEq, Repr

/-- The movement plan chosen for a width and drawn offset `o`. -/
def move_plan (w o : Nat) : MovePlan :=
  if w ≤ 4 * VIRTUAL_COLUMNIZED_WIDTH then .whole ⟨0, w, 0, w⟩
  else if w < o + 3 * VIRTUAL_COLUMNIZED_WIDTH then .abort
  else
    .banded
      (⟨0, o + VIRTUAL_COLUMNIZED_WIDTH, 0, o⟩ ::
        chunk_bands (o + VIRTUAL_COLUMNIZED_WIDTH) w)
      (⟨0, o + 3 * VIRTUAL_COLUMNIZED_WIDTH, o,
          2 * VIRTUAL_COLUMNIZED_WIDTH⟩ ::
        chunk_bands (o + 3 * VIRTUAL_COLUMNIZED_WIDTH) w)

/-- Run the resolvers of one phase in order (`rs i` is the drawn rng
stream of the i-th resolver run; the slices of one phase are
column-disjoint, so the sequential order is immaterial). -/
def run_bands (bs : List Band) (ltr : Bool) (rs : Nat → Nat → Nat)
    (i : Nat) (g : Sandbox) : Sandbox :=
  match bs with
  | [] => g
  | b :: rest =>
      run_bands rest ltr rs (i + 1)
        (virtual_box_tick b.lo b.len b.off b.vw ltr (rs i) g)

/-- Clear every cell's moved flag, from the final
`par_iter_mut ... mark_is_moved(false)` loop of
`Sandbox::exec_pixels_movement` lines 116-120. -/
def clear_moved (g : Sandbox) : Sandbox :=
  { g with cells := fun c => ⟨(g.cells c).pixel, false⟩ }

/-- Movement scheduler, from `Sandbox::exec_pixels_movement` in
`crates/engine/src/sandbox/sandbox.rs` lines 61-121. `od` is the
tick's draw for the band offset (`gen_range(1..=2W)` becomes
`1 + od % 2W`), `rs i` the rng stream of the i-th resolver run.
`none` models the `split_at_mut` abort; on the narrow-grid path the
source returns before the flag-clearing loop and the embedding
mirrors that early return. -/
def exec_pixels_movement (od : Nat) (rs : Nat → Nat → Nat)
    (g : Sandbox) : Option Sandbox :=
  let o := 1 + od % (2 * VIRTUAL_COLUMNIZED_WIDTH)
  match move_plan g.width o with
  | .whole b => some (virtual_box_tick b.lo b.len b.off b.vw g.ltr (rs 0) g)
  | .abort => none
  | .banded p1 p2 =>
    let g1 := run_bands p1 g.ltr rs 0 g
    let g2 := run_bands p2 g.ltr rs p1.length g1
    some (clear_moved g2)

/-- New value of one cell in the interaction/update pass, from the
per-cell closure of `Sandbox::exec_pixels_interaction` in
`crates/engine/src/sandbox/sandbox.rs` lines 126-149: read the four
orthogonal neighbors of the pre-pass grid in the order Up, Down,
Left, Right, apply `interact` for each present one in that order,
then apply `update` once; a returned replacement becomes a fresh
container (moved flag false), otherwise the possibly mutated
material keeps the cell's old flag. -/
def interact_cell (g : Sandbox) (c : Coordinate) : PixelContainer :=
  let neighbour : List (Option PixelInstance) :=
    [Direction.up, Direction.down, Direction.left, Direction.right].map
      fun dir => (get_neighbour_pixel g 0 g.width c dir).map fun q => q.2.pixel
  let cont := g.cells c
  let p1 := neighbour.foldl
    (fun p t => match t with | some tp => p.interact tp | none => p)
    cont.pixel
  match p1.update with
  | (_, some np) => PixelContainer.new np
  | (p2, none) => ⟨p2, cont.is_moved⟩

/-- Interaction/update pass, from `Sandbox::exec_pixels_interaction`
lines 123-153: every in-bounds cell of a fresh buffer is computed
from the pre-pass grid, and the buffer replaces the grid. -/
def exec_pixels_interaction (g : Sandbox) : Sandbox :=
  { g with cells := fun c =>
      if c.1 < g.width ∧ c.2 < g.height then interact_cell g c
      else g.cells c }

/-- One tick, from `Sandbox::tick` in
`crates/engine/src/sandbox/sandbox.rs` lines 155-159: interaction
pass, then movement pass, then toggle the scan direction. -/
def Sandbox.tick (od : Nat) (rs : Nat → Nat → Nat) (g : Sandbox) :
    Option Sandbox :=
  (exec_pixels_movement od rs (exec_pixels_interaction g)).map
    fun g2 => { g2 with ltr := !g2.ltr }

/-- Guarded placement, from `Sandbox::place_pixel` in
`crates/engine/src/sandbox/sandbox.rs` lines 46-53: in bounds and
`Void` only. -/
def place_pixel (g : Sandbox) (p : PixelInstance) (c : Coordinate) :
    Sandbox :=
  match get_pixel g 0 g.width c with
  | some cont =>
      if cont.pixel.pixel_type ≠ .void then g
      else
        { g with cells := fun e =>
            if e = c then PixelContainer.new p else g.cells e }
  | none => g

/-- Unconditional placement, from `Sandbox::place_pixel_force` lines
55-59. -/
def place_pixel_force (g : Sandbox) (p : PixelInstance)
    (c : Coordinate) : Sandbox :=
  match get_pixel g 0 g.width c with
  | some _ =>
      { g with cells := fun e =>
          if e = c then PixelContainer.new p else g.cells e }
  | none => g

/-- Number of cells of the grid holding material (category not
`Void`). -/
def count_non_void (g : Sandbox) : Nat :=
  ∑ c ∈ Finset.range g.width ×ˢ Finset.range g.height,
    if (g.cells c).pixel.pixel_type ≠ .void then 1 else 0

/-- One Sand grain above one empty cell on a single-column grid:
the smallest grid exercising the narrow-grid movement path. -/
def sand_column : Sandbox :=
  ⟨1, 2, fun c => if c = (0, 0) then ⟨.sand, false⟩
    else ⟨.void false, false⟩, true⟩

/-- Modelled from the spec: the spec sentence "If total grid width
is smaller than `4W`, skip banding" as a predicate on the width, for
comparison with the code's `width <= 4W` test. -/
def banding_skipped_spec (w : Nat) : Prop := w < 4 * VIRTUAL_COLUMNIZED_WIDTH

/-- EternalFire at `(0, 0)` beside Water of temperature `t` at
`(1, 0)` on a 2-by-1 grid. -/
def water_beside_fire (t : Nat) : Sandbox :=
  ⟨2, 1, fun c => if c = (0, 0) then ⟨.eternalFire, false⟩
    else if c = (1, 0) then ⟨.water t, false⟩
    else ⟨.void false, false⟩, true⟩

/-- The set of columns a band actually resolves:
`[lo+off, lo+off+min vw (len-off))`. -/
def resolved_cols (b : Band) : Finset Nat :=
  Finset.Ico (b.lo + b.off) (b.lo + b.off + min b.vw (b.len - b.off))

/-- The material of a cell after its four `interact` calls (the
fold of `interact_cell` before `update` runs). -/
def interacted_pixel (g : Sandbox) (c : Coordinate) : PixelInstance :=
  (([Direction.up, Direction.down, Direction.left, Direction.right].map
      fun dir => (get_neighbour_pixel g 0 g.width c dir).map
        fun q => q.2.pixel)).foldl
    (fun p t => match t with | some tp => p.interact tp | none => p)
    (g.cells c).pixel

/-! Theorems. -/

/-- The shared triple match of `can_swap_with` and `check_density`
grants the move exactly on a strict density inequality in the
direction selected by `reverse`, never on equality. -/
theorem density_match_true_iff (d td : Int) (rev : Bool) :
    (match decide (d = td), decide (d > td), rev with
     | true, _, _ => false
     | false, true, false => true
     | false, false, true => true
     | _, _, _ => false) = true ↔
      d ≠ td ∧ (if rev then d < td else d > td) := by
  rcases rev with _ | _ <;>
    by_cases h1 : d = td <;> by_cases h2 : d > td <;>
      simp [h1, h2] <;> omega

/-- Option-valued form of the shared triple match, as it appears in
the legacy `check_density`. -/
theorem density_match_some_iff (d td : Int) (rev : Bool) (dir : Direction) :
    (match decide (d = td), decide (d > td), rev with
     | true, _, _ => none
     | false, true, false => some dir
     | false, false, true => some dir
     | _, _, _ => none) = some dir ↔
      d ≠ td ∧ (if rev then d < td else d > td) := by
  rcases rev with _ | _ <;>
    by_cases h1 : d = td <;> by_cases h2 : d > td <;>
      simp [h1, h2] <;> omega

/-- C1: for a pixel carrying a density `d`, `can_swap_with` refuses
any target already flagged moved; an unmoved `Void` target is always
legal; a `Wall` target is never legal; an unmoved density-bearing
target `td` is legal exactly when `d ≠ td` and `d` exceeds `td` for
the normal orientation (`reverse = (d < 0)` false) or is below `td`
for the reversed one; equal densities are never legal. The legacy
`check_density` decides the same rule with `reverse` supplied by the
caller and no moved flag in scope. -/
theorem c1_movement_legality (self target : PixelContainer) (d : Int)
    (hd : self.pixel.pixel_type.density = some d) :
    (target.is_moved = true → can_swap_with self target = false)
  ∧ (target.is_moved = false → target.pixel.pixel_type = .void →
      can_swap_with self target = true)
  ∧ (target.pixel.pixel_type = .wall → can_swap_with self target = false)
  ∧ (∀ td, target.is_moved = false →
      target.pixel.pixel_type.density = some td →
      (can_swap_with self target = true ↔
        d ≠ td ∧ (if d < 0 then d < td else d > td)))
  ∧ (∀ td, target.pixel.pixel_type.density = some td → d = td →
      can_swap_with self target = false)
  ∧ (∀ (tt : PixelType) (rev : Bool) (dir : Direction),
      (tt = .void → check_density d (some tt) dir rev = some dir)
    ∧ (tt = .wall → check_density d (some tt) dir rev = none)
    ∧ (∀ td, tt.density = some td →
        (check_density d (some tt) dir rev = some dir ↔
          d ≠ td ∧ (if rev then d < td else d > td)))) := by
  refine ⟨?_, ?_, ?_, ?_, ?_, ?_⟩
  · intro hm
    simp [can_swap_with, hd, hm]
  · intro hm hv
    simp [can_swap_with, hd, hm, hv]
  · intro hw
    simp [can_swap_with, hd, hw]
  · intro td hm htd
    rcases htt : target.pixel.pixel_type with d2 | d2 | d2 | _ | _ <;>
      rw [htt] at htd <;> simp only [PixelType.density] at htd
    all_goals try exact Option.noConfusion htd
    all_goals
      injection htd with h2
      subst h2
      simp only [can_swap_with, hd, hm, htt, if_neg, Bool.false_eq_true,
        not_false_iff]
      simpa using density_match_true_iff d d2 (decide (d < 0))
  · intro td htd heq
    subst heq
    cases hm : target.is_moved
    · rcases htt : target.pixel.pixel_type with d2 | d2 | d2 | _ | _ <;>
        rw [htt] at htd <;> simp only [PixelType.density] at htd
      all_goals try exact Option.noConfusion htd
      all_goals
        injection htd with h2
        subst h2
        simp [can_swap_with, hd, hm, htt]
    · simp [can_swap_with, hd, hm]
  · intro tt rev dir
    refine ⟨?_, ?_, ?_⟩
    · rintro rfl; rfl
    · rintro rfl; rfl
    · intro td htd
      rcases tt with d2 | d2 | d2 | _ | _ <;>
        simp only [PixelType.density] at htd
      all_goals try exact Option.noConfusion htd
      all_goals
        injection htd with h2
        subst h2
        simp only [check_density]
        exact density_match_some_iff d d2 rev dir

/-- Witness for C1 at concrete pixels: Sand (density 50) may move
into unmoved Water (density 10). -/
theorem c1_movement_legality_witness :
    can_swap_with ⟨.sand, false⟩ ⟨.water 20, false⟩ = true :=
  ((c1_movement_legality ⟨.sand, false⟩ ⟨.water 20, false⟩ 50 rfl).2.2.2.1
    10 rfl rfl).mpr (by decide)

/-- C7: the legacy `src/engine/sandbox.rs` neighbor arithmetic
subtracts before any bounds test, so the Up query from row 0 (here
cell `(1, 0)`, visited by every legacy interaction pass) underflows
— a debug-build fault — and `get_neighbour_pixel` can only recover
in release mode by wrapping; the crates-engine
`get_neighbour_coordinates` tests the edge guard first and returns
the absent marker for the same queries. -/
theorem c7_edge_guard_ordering :
    legacy_get_neighbour_coordinates 1 0 .up = none
  ∧ (∀ (cells : Coordinate → PixelContainer) (w h : Nat),
      legacy_get_neighbour_pixel w h cells 1 0 .up = .fault)
  ∧ (∀ (lo len h x : Nat),
      get_neighbour_coordinates lo len h (x, 0) .up = none)
  ∧ (∀ (lo len h y : Nat),
      get_neighbour_coordinates lo len h (lo, y) .left = none) := by
  refine ⟨rfl, fun _ _ _ => rfl, ?_, ?_⟩
  · intro lo len h x
    simp [get_neighbour_coordinates]
  · intro lo len h y
    simp [get_neighbour_coordinates]

/-- C8: placement into an in-bounds cell already holding material is
a strict no-op, and forced placement always writes a fresh container
with the given material at the target cell (touching no other
cell). -/
theorem c8_place_contract :
    (∀ (g : Sandbox) (p : PixelInstance) (c : Coordinate),
      c.1 < g.width → c.2 < g.height →
      (g.cells c).pixel.pixel_type ≠ .void → place_pixel g p c = g)
  ∧ (∀ (g : Sandbox) (p : PixelInstance) (c : Coordinate),
      c.1 < g.width → c.2 < g.height →
      (place_pixel_force g p c).cells c = PixelContainer.new p
        ∧ ∀ e, e ≠ c → (place_pixel_force g p c).cells e = g.cells e) := by
  constructor
  · intro g p c hx hy hnv
    simp [place_pixel, get_pixel, hx, hy, hnv]
  · intro g p c hx hy
    constructor
    · simp [place_pixel_force, get_pixel, hx, hy]
    · intro e he
      simp [place_pixel_force, get_pixel, hx, hy, he]

/-- Witness for C8 on a 1-by-1 grid holding Rock: `place_pixel` is a
no-op there and `place_pixel_force` overwrites. -/
theorem c8_place_contract_witness :
    place_pixel ⟨1, 1, fun _ => ⟨.rock, false⟩, true⟩ .sand (0, 0) =
      ⟨1, 1, fun _ => ⟨.rock, false⟩, true⟩
  ∧ (place_pixel_force ⟨1, 1, fun _ => ⟨.rock, false⟩, true⟩ .sand
      (0, 0)).cells (0, 0) = PixelContainer.new .sand :=
  ⟨c8_place_contract.1 _ _ _ (by decide) (by decide) (by decide),
   (c8_place_contract.2 _ _ _ (by decide) (by decide)).1⟩

/-- C2: on the narrow-grid path (`width <= 4W`) the source returns
from `exec_pixels_movement` before the flag-clearing loop, so after
a full `tick` the moved flag set by the grain's fall survives: the
Sand that fell to `(0, 1)` still carries `is_moved = true`, where
the claim requires every flag to be false. -/
theorem c2_moved_flag_persists :
    ((Sandbox.tick 0 (fun _ _ => 0) sand_column).map
      fun g2 => (g2.cells (0, 1), g2.cells (0, 0))) =
      some (⟨.sand, true⟩, ⟨.void false, false⟩) := by
  decide

/-- A successful `get_pixel` pins the coordinate inside the slice
and returns the cell itself. -/
theorem get_pixel_eq_some {g : Sandbox} {lo len : Nat} {c : Coordinate}
    {p : PixelContainer} (h : get_pixel g lo len c = some p) :
    lo ≤ c.1 ∧ c.1 < lo + len ∧ c.2 < g.height ∧ p = g.cells c := by
  unfold get_pixel at h
  split at h
  · rename_i hb
    exact ⟨hb.1, hb.2.1, hb.2.2, (Option.some.injEq _ _ ▸ h).symm⟩
  · cases h

theorem swap_pixels_width (g : Sandbox) (lo len : Nat)
    (a b : Coordinate) : (swap_pixels g lo len a b).width = g.width := by
  unfold swap_pixels
  rcases get_pixel g lo len a <;> rcases get_pixel g lo len b <;> rfl

theorem swap_pixels_height (g : Sandbox) (lo len : Nat)
    (a b : Coordinate) : (swap_pixels g lo len a b).height = g.height := by
  unfold swap_pixels
  rcases get_pixel g lo len a <;> rcases get_pixel g lo len b <;> rfl

/-- Marking a moved flag does not change which cells hold material. -/
theorem count_mark_moved (g : Sandbox) (c : Coordinate) (b : Bool) :
    count_non_void (mark_moved_at g c b) = count_non_void g := by
  unfold count_non_void mark_moved_at
  apply Finset.sum_congr rfl
  intro e _
  by_cases h : e = c
  · subst h; simp
  · simp [h]

/-- A swap inside a slice that fits the grid permutes two cells and
so preserves the number of material-holding cells. -/
theorem count_swap_pixels (g : Sandbox) (lo len : Nat)
    (c1 c2 : Coordinate) (hlen : lo + len ≤ g.width) :
    count_non_void (swap_pixels g lo len c1 c2) = count_non_void g := by
  unfold swap_pixels
  rcases h1 : get_pixel g lo len c1 with _ | p1 <;>
    rcases h2 : get_pixel g lo len c2 with _ | p2 <;> try rfl
  obtain ⟨hb1a, hb1b, hb1c, hp1⟩ := get_pixel_eq_some h1
  obtain ⟨hb2a, hb2b, hb2c, hp2⟩ := get_pixel_eq_some h2
  subst hp1
  subst hp2
  unfold count_non_void
  have hc1 : c1 ∈ Finset.range g.width ×ˢ Finset.range g.height :=
    Finset.mem_product.mpr
      ⟨Finset.mem_range.mpr (by omega), Finset.mem_range.mpr hb1c⟩
  have hc2 : c2 ∈ Finset.range g.width ×ˢ Finset.range g.height :=
    Finset.mem_product.mpr
      ⟨Finset.mem_range.mpr (by omega), Finset.mem_range.mpr hb2c⟩
  refine Finset.sum_equiv (Equiv.swap c1 c2) ?_ ?_
  · intro i
    rcases eq_or_ne i c1 with rfl | hi1
    · simp [Equiv.swap_apply_left, hc1, hc2]
    · rcases eq_or_ne i c2 with rfl | hi2
      · simp [Equiv.swap_apply_right, hc1, hc2]
      · rw [Equiv.swap_apply_of_ne_of_ne hi1 hi2]
  · intro i _
    rcases eq_or_ne i c1 with rfl | hi1
    · simp [Equiv.swap_apply_left]
    · rcases eq_or_ne i c2 with rfl | hi2
      · simp [Equiv.swap_apply_right, hi1]
      · simp [Equiv.swap_apply_of_ne_of_ne hi1 hi2, hi1, hi2]

/-- One resolver step keeps the grid dimensions. -/
theorem band_step_dims (lo len : Nat) (rng : Nat → Nat)
    (st : Sandbox × Nat × List SwapRec) (c : Coordinate) :
    (band_step lo len rng st c).1.width = st.1.width ∧
      (band_step lo len rng st c).1.height = st.1.height := by
  unfold band_step
  rcases h : get_pixel st.1 lo len c with _ | p
  · exact ⟨rfl, rfl⟩
  · dsimp only
    split_ifs with h1 h2
    · exact ⟨rfl, rfl⟩
    · exact ⟨rfl, rfl⟩
    · rcases h3 : tick_move st.1 lo len c (rng st.2.1) with _ | d
      · exact ⟨rfl, rfl⟩
      · constructor
        · rw [swap_pixels_width]
          split_ifs <;> rfl
        · rw [swap_pixels_height]
          split_ifs <;> rfl

/-- One resolver step preserves the number of material-holding
cells: the only grid mutations are flag marks and one swap. -/
theorem band_step_count (lo len : Nat) (rng : Nat → Nat)
    (st : Sandbox × Nat × List SwapRec) (c : Coordinate)
    (hlen : lo + len ≤ st.1.width) :
    count_non_void (band_step lo len rng st c).1 = count_non_void st.1 := by
  unfold band_step
  rcases h : get_pixel st.1 lo len c with _ | p
  · rfl
  · dsimp only
    split_ifs with h1 h2
    · rfl
    · rfl
    · rcases h3 : tick_move st.1 lo len c (rng st.2.1) with _ | d
      · rfl
      · dsimp only
        rw [count_swap_pixels]
        · split_ifs with h4
          · rw [count_mark_moved, count_mark_moved]
          · rw [count_mark_moved]
        · split_ifs with h4 <;> exact hlen

/-- Folding resolver steps over any visit list keeps dimensions and
the material count. -/
theorem band_fold_invariant (lo len : Nat) (rng : Nat → Nat)
    (l : List Coordinate) :
    ∀ st : Sandbox × Nat × List SwapRec, lo + len ≤ st.1.width →
      (l.foldl (band_step lo len rng) st).1.width = st.1.width ∧
      (l.foldl (band_step lo len rng) st).1.height = st.1.height ∧
      count_non_void (l.foldl (band_step lo len rng) st).1 =
        count_non_void st.1 := by
  induction l with
  | nil => exact fun st _ => ⟨rfl, rfl, rfl⟩
  | cons c cs ih =>
    intro st h
    obtain ⟨hw, hh⟩ := band_step_dims lo len rng st c
    have hc := band_step_count lo len rng st c h
    have hrec := ih (band_step lo len rng st c) (by omega)
    refine ⟨hrec.1.trans hw, hrec.2.1.trans hh, hrec.2.2.trans hc⟩

/-- A band resolution inside the grid preserves dimensions and the
material count. -/
theorem virtual_box_tick_invariant (lo len off vw : Nat) (ltr : Bool)
    (rng : Nat → Nat) (g : Sandbox) (hlen : lo + len ≤ g.width) :
    (virtual_box_tick lo len off vw ltr rng g).width = g.width ∧
    (virtual_box_tick lo len off vw ltr rng g).height = g.height ∧
    count_non_void (virtual_box_tick lo len off vw ltr rng g) =
      count_non_void g :=
  band_fold_invariant lo len rng
    (band_coords lo len off vw g.height ltr) (g, 0, []) hlen

/-- Every band of every movement plan fits inside the grid width. -/
theorem chunk_bands_mem {start w : Nat} {b : Band}
    (hb : b ∈ chunk_bands start w) :
    b.off = VIRTUAL_COLUMNIZED_WIDTH ∧
    b.vw = 2 * VIRTUAL_COLUMNIZED_WIDTH ∧
    VIRTUAL_COLUMNIZED_WIDTH < b.len ∧
    b.len ≤ w - b.lo ∧ start ≤ b.lo ∧ b.lo + b.len ≤ w ∧
    ∃ k, b.lo = start + 4 * VIRTUAL_COLUMNIZED_WIDTH * k := by
  unfold chunk_bands at hb
  rw [List.mem_filterMap] at hb
  obtain ⟨k, hk, hsome⟩ := hb
  split_ifs at hsome with hlt
  injection hsome with hbeq
  subst hbeq
  dsimp only
  have h1 := min_le_right (4 * VIRTUAL_COLUMNIZED_WIDTH)
    (w - (start + 4 * VIRTUAL_COLUMNIZED_WIDTH * k))
  have h2 := min_le_left (4 * VIRTUAL_COLUMNIZED_WIDTH)
    (w - (start + 4 * VIRTUAL_COLUMNIZED_WIDTH * k))
  exact ⟨rfl, rfl, hlt, h1, by omega, by omega, ⟨k, rfl⟩⟩

/-- Running a list of in-grid bands preserves dimensions and the
material count. -/
theorem run_bands_invariant (bs : List Band) (ltr : Bool)
    (rs : Nat → Nat → Nat) :
    ∀ (i : Nat) (g : Sandbox), (∀ b ∈ bs, b.lo + b.len ≤ g.width) →
      (run_bands bs ltr rs i g).width = g.width ∧
      (run_bands bs ltr rs i g).height = g.height ∧
      count_non_void (run_bands bs ltr rs i g) = count_non_void g := by
  induction bs with
  | nil => exact fun i g _ => ⟨rfl, rfl, rfl⟩
  | cons b rest ih =>
    intro i g hb
    obtain ⟨hw, hh, hc⟩ :=
      virtual_box_tick_invariant b.lo b.len b.off b.vw ltr (rs i) g
        (hb b (List.mem_cons_self b rest))
    have hrec := ih (i + 1) (virtual_box_tick b.lo b.len b.off b.vw ltr (rs i) g)
      (by intro b2 h2; rw [hw]; exact hb b2 (List.mem_cons_of_mem b h2))
    exact ⟨hrec.1.trans hw, hrec.2.1.trans hh, hrec.2.2.trans hc⟩

theorem count_clear_moved (g : Sandbox) :
    count_non_void (clear_moved g) = count_non_void g := by
  unfold count_non_void clear_moved
  exact Finset.sum_congr rfl fun e _ => rfl

/-- C3: the movement pass only relocates material by swapping two
cells, so the number of non-Void cells is invariant: any single band
resolution that fits the grid preserves it, and so does the whole
movement scheduler (any number of bands, both phases, or the single
whole-grid resolver) whenever it completes. -/
theorem c3_movement_conserves_occupancy :
    (∀ (g : Sandbox) (lo len off vw : Nat) (ltr : Bool) (rng : Nat → Nat),
      lo + len ≤ g.width →
      count_non_void (virtual_box_tick lo len off vw ltr rng g) =
        count_non_void g)
  ∧ (∀ (g g2 : Sandbox) (od : Nat) (rs : Nat → Nat → Nat),
      exec_pixels_movement od rs g = some g2 →
      count_non_void g2 = count_non_void g) := by
  constructor
  · intro g lo len off vw ltr rng h
    exact (virtual_box_tick_invariant lo len off vw ltr rng g h).2.2
  · intro g g2 od rs h
    unfold exec_pixels_movement at h
    dsimp only at h
    have ho : 1 + od % (2 * VIRTUAL_COLUMNIZED_WIDTH) ≤
        2 * VIRTUAL_COLUMNIZED_WIDTH := by
      have := Nat.mod_lt od
        (show 0 < 2 * VIRTUAL_COLUMNIZED_WIDTH by decide)
      omega
    unfold move_plan at h
    split_ifs at h with h1 h2
    · injection h with hg2
      subst hg2
      exact (virtual_box_tick_invariant 0 g.width 0 g.width g.ltr (rs 0) g
        (by omega)).2.2
    · injection h with hg2
      subst hg2
      rw [count_clear_moved]
      have hfit1 : ∀ b ∈
          (⟨0, 1 + od % (2 * VIRTUAL_COLUMNIZED_WIDTH) +
              VIRTUAL_COLUMNIZED_WIDTH, 0,
            1 + od % (2 * VIRTUAL_COLUMNIZED_WIDTH)⟩ :: chunk_bands
              (1 + od % (2 * VIRTUAL_COLUMNIZED_WIDTH) +
                VIRTUAL_COLUMNIZED_WIDTH) g.width : List Band),
          b.lo + b.len ≤ g.width := by
        rintro b hb
        rcases List.mem_cons.mp hb with rfl | hb2
        · dsimp only
          simp only [VIRTUAL_COLUMNIZED_WIDTH] at h1 ho ⊢
          omega
        · exact (chunk_bands_mem hb2).2.2.2.2.2.1
      have hfit2 : ∀ b ∈
          (⟨0, 1 + od % (2 * VIRTUAL_COLUMNIZED_WIDTH) +
              3 * VIRTUAL_COLUMNIZED_WIDTH,
            1 + od % (2 * VIRTUAL_COLUMNIZED_WIDTH),
            2 * VIRTUAL_COLUMNIZED_WIDTH⟩ :: chunk_bands
              (1 + od % (2 * VIRTUAL_COLUMNIZED_WIDTH) +
                3 * VIRTUAL_COLUMNIZED_WIDTH) g.width : List Band),
          b.lo + b.len ≤ g.width := by
        rintro b hb
        rcases List.mem_cons.mp hb with rfl | hb2
        · dsimp only
          omega
        · exact (chunk_bands_mem hb2).2.2.2.2.2.1
      obtain ⟨hw1, hh1, hc1⟩ := run_bands_invariant _ g.ltr rs 0 g hfit1
      obtain ⟨hw2, hh2, hc2⟩ := run_bands_invariant _ g.ltr rs _ _
        (by rw [hw1]; exact hfit2)
      exact hc2.trans hc1

/-- Witness for C3: the falling Sand grain on the single-column grid
keeps the non-Void count (both through the bare resolver and through
the completed movement pass). -/
theorem c3_movement_conserves_occupancy_witness :
    count_non_void (virtual_box_tick 0 1 0 1 true (fun _ => 0) sand_column) =
      count_non_void sand_column :=
  c3_movement_conserves_occupancy.2 sand_column
    (virtual_box_tick 0 1 0 1 true (fun _ => 0) sand_column) 0
    (fun _ _ => 0) rfl

/-- C6: the interaction/update pass writes, at every in-bounds cell,
exactly the value computed by `interact_cell` from the pre-pass grid
(cells outside the bounds are untouched); `interact_cell` folds one
`interact` per present orthogonal neighbor in the fixed order Up,
Down, Left, Right, then applies `update` exactly once; a returned
replacement overwrites the cell as a fresh container whose moved
flag is false; and the cell's new value depends only on its own
pre-pass value and its four orthogonal neighbors. -/
theorem c6_interaction_pass (g : Sandbox) (c : Coordinate)
    (hx : c.1 < g.width) (hy : c.2 < g.height) :
    (exec_pixels_interaction g).cells c = interact_cell g c
  ∧ (exec_pixels_interaction g).width = g.width
  ∧ (exec_pixels_interaction g).height = g.height
  ∧ (∀ e : Coordinate, ¬ (e.1 < g.width ∧ e.2 < g.height) →
      (exec_pixels_interaction g).cells e = g.cells e)
  ∧ interacted_pixel g c =
      (let step := fun (p : PixelInstance) (t : Option PixelInstance) =>
        match t with | some tp => p.interact tp | none => p
      step (step (step (step (g.cells c).pixel
        ((get_neighbour_pixel g 0 g.width c .up).map fun q => q.2.pixel))
        ((get_neighbour_pixel g 0 g.width c .down).map fun q => q.2.pixel))
        ((get_neighbour_pixel g 0 g.width c .left).map fun q => q.2.pixel))
        ((get_neighbour_pixel g 0 g.width c .right).map fun q => q.2.pixel))
  ∧ interact_cell g c =
      (match (interacted_pixel g c).update with
       | (_, some np) => PixelContainer.new np
       | (p2, none) => ⟨p2, (g.cells c).is_moved⟩)
  ∧ (∀ p2 np, (interacted_pixel g c).update = (p2, some np) →
      interact_cell g c = PixelContainer.new np ∧
        (interact_cell g c).is_moved = false)
  ∧ (∀ g2 : Sandbox, g2.width = g.width → g2.height = g.height →
      g2.cells c = g.cells c →
      (∀ dir, get_neighbour_pixel g2 0 g2.width c dir =
        get_neighbour_pixel g 0 g.width c dir) →
      interact_cell g2 c = interact_cell g c) := by
  refine ⟨?_, rfl, rfl, ?_, rfl, rfl, ?_, ?_⟩
  · simp [exec_pixels_interaction, hx, hy]
  · intro e he
    simp only [exec_pixels_interaction]
    rw [if_neg he]
  · intro p2 np hup
    have hic : interact_cell g c = PixelContainer.new np := by
      rw [show interact_cell g c =
        (match (interacted_pixel g c).update with
         | (_, some np) => PixelContainer.new np
         | (q, none) => ⟨q, (g.cells c).is_moved⟩) from rfl, hup]
    exact ⟨hic, by rw [hic]; rfl⟩
  · intro g2 hw hh hc hn
    simp only [interact_cell, hn, hc]

/-- Witness for C6 at the Water-beside-EternalFire grid: the pass
writes the `interact_cell` value at `(1, 0)`. -/
theorem c6_interaction_pass_witness :
    (exec_pixels_interaction (water_beside_fire 20)).cells (1, 0) =
      interact_cell (water_beside_fire 20) (1, 0) :=
  (c6_interaction_pass (water_beside_fire 20) (1, 0)
    (by decide) (by decide)).1

/-- C10: a Water cell whose only present interacting neighbor is
EternalFire gains exactly 2 temp per interaction pass while below
30 (never skipping a pass), converts to `Steam::default()` in the
pass where its temp reaches 30, and on the concrete 2-by-1 grid the
default Water (temp 20) becomes Steam at its own coordinate after
the fifth tick. -/
theorem c10_water_to_steam :
    (∀ t : Nat, 8 < t → t < 28 →
      interact_cell (water_beside_fire t) (1, 0) = ⟨.water (t + 2), false⟩)
  ∧ (∀ t : Nat, 28 ≤ t → t < 30 →
      interact_cell (water_beside_fire t) (1, 0) =
        PixelContainer.new (.steam 200))
  ∧ (∀ t : Nat, t < 30 →
      PixelInstance.interact (.water t) .eternalFire = .water (t + 2))
  ∧ (∀ t : Nat, 30 ≤ t →
      (PixelInstance.update (.water t)).2 = some (.steam 200))
  ∧ (((((Sandbox.tick 0 (fun _ _ => 0) (water_beside_fire 20)).bind
        (Sandbox.tick 0 (fun _ _ => 0))).bind
        (Sandbox.tick 0 (fun _ _ => 0))).bind
        (Sandbox.tick 0 (fun _ _ => 0))).bind
        (Sandbox.tick 0 (fun _ _ => 0))).map (fun g2 => g2.cells (1, 0)) =
      some ⟨.steam 200, false⟩ := by
  refine ⟨?_, ?_, ?_, ?_, by decide⟩
  · intro t h1 h2
    have hne : ¬ 30 ≤ t := by omega
    have hlt : t < 30 := by omega
    have h30 : ¬ 30 ≤ t + 2 := by omega
    have h10 : ¬ t + 2 ≤ 10 := by omega
    have hmod : (t + 2) % 256 = t + 2 := Nat.mod_eq_of_lt (by omega)
    simp [interact_cell, water_beside_fire, get_neighbour_pixel,
      get_neighbour_coordinates, get_pixel, PixelInstance.interact,
      PixelInstance.update, u8add, hne, hlt, h30, h10, hmod]
  · intro t h1 h2
    have hne : ¬ 30 ≤ t := by omega
    have hlt : t < 30 := by omega
    have hge : 30 ≤ t + 2 := by omega
    have hmod : (t + 2) % 256 = t + 2 := Nat.mod_eq_of_lt (by omega)
    simp [interact_cell, water_beside_fire, get_neighbour_pixel,
      get_neighbour_coordinates, get_pixel, PixelInstance.interact,
      PixelInstance.update, u8add, hne, hlt, hge, hmod, PixelContainer.new]
  · intro t h1
    have hne : ¬ 30 ≤ t := by omega
    have hmod : (t + 2) % 256 = t + 2 := Nat.mod_eq_of_lt (by omega)
    simp [PixelInstance.interact, u8add, hne, hmod]
  · intro t h1
    simp [PixelInstance.update, h1]

/-- Witness for C10: one interaction pass at temp 20 yields Water at
temp 22 with a clear moved flag. -/
theorem c10_water_to_steam_witness :
    interact_cell (water_beside_fire 20) (1, 0) = ⟨.water 22, false⟩ :=
  c10_water_to_steam.1 20 (by decide) (by decide)

/-- Two `Ico` intervals with the first ending before the second
starts are disjoint. -/
theorem ico_disjoint {a b c d : Nat} (h : b ≤ c) :
    Disjoint (Finset.Ico a b) (Finset.Ico c d) := by
  rw [Finset.disjoint_left]
  intro x hx hx2
  rw [Finset.mem_Ico] at hx hx2
  omega

/-- Case-by-case behavior of one resolver step: skip on an
out-of-slice lookup, a `Void` cell, or an already-moved cell; on a
failed movement check only the rng position advances; on a found
target the source is marked moved, the destination is marked moved
only if it held material, the two cells are swapped, and the swap is
recorded. -/
theorem band_step_eq (lo len : Nat) (rng : Nat → Nat)
    (st : Sandbox × Nat × List SwapRec) (c : Coordinate) :
    (get_pixel st.1 lo len c = none → band_step lo len rng st c = st)
  ∧ (∀ p, get_pixel st.1 lo len c = some p →
      p.pixel.pixel_type = .void → band_step lo len rng st c = st)
  ∧ (∀ p, get_pixel st.1 lo len c = some p → p.is_moved = true →
      band_step lo len rng st c = st)
  ∧ (∀ p, get_pixel st.1 lo len c = some p →
      p.pixel.pixel_type ≠ .void → p.is_moved = false →
      tick_move st.1 lo len c (rng st.2.1) = none →
      band_step lo len rng st c = (st.1, st.2.1 + 1, st.2.2))
  ∧ (∀ p d, get_pixel st.1 lo len c = some p →
      p.pixel.pixel_type ≠ .void → p.is_moved = false →
      tick_move st.1 lo len c (rng st.2.1) = some d →
      band_step lo len rng st c =
        (swap_pixels
          (if ((mark_moved_at st.1 c true).cells d).pixel.pixel_type ≠ .void
            then mark_moved_at (mark_moved_at st.1 c true) d true
            else mark_moved_at st.1 c true) lo len c d,
         st.2.1 + 1,
         st.2.2 ++ [⟨c, d,
           decide (((mark_moved_at st.1 c true).cells d).pixel.pixel_type ≠
             .void)⟩])) := by
  refine ⟨?_, ?_, ?_, ?_, ?_⟩
  · intro hp
    unfold band_step
    rw [hp]
  · intro p hp hv
    unfold band_step
    rw [hp]
    dsimp only
    rw [if_pos hv]
  · intro p hp hm
    unfold band_step
    rw [hp]
    dsimp only
    by_cases hv : p.pixel.pixel_type = .void
    · rw [if_pos hv]
    · rw [if_neg hv, if_pos hm]
  · intro p hp hv hm ht
    unfold band_step
    rw [hp]
    dsimp only
    rw [if_neg hv, if_neg (by rw [hm]; exact Bool.false_ne_true), ht]
  · intro p d hp hv hm ht
    unfold band_step
    rw [hp]
    dsimp only
    rw [if_neg hv, if_neg (by rw [hm]; exact Bool.false_ne_true), ht]

/-- One resolver step either leaves the trace alone or appends one
record whose source is the visited cell. -/
theorem band_step_trace (lo len : Nat) (rng : Nat → Nat)
    (st : Sandbox × Nat × List SwapRec) (c : Coordinate) :
    (band_step lo len rng st c).2.2 = st.2.2 ∨
    ∃ d dnv, (band_step lo len rng st c).2.2 = st.2.2 ++ [⟨c, d, dnv⟩] := by
  unfold band_step
  rcases h : get_pixel st.1 lo len c with _ | p
  · left; rfl
  · dsimp only
    split_ifs with h1 h2
    · left; rfl
    · left; rfl
    · rcases h3 : tick_move st.1 lo len c (rng st.2.1) with _ | d
      · left; rfl
      · right; exact ⟨d, _, rfl⟩

/-- Folding resolver steps appends, to the incoming trace, records
whose source list is a subsequence of the visited cells. -/
theorem band_fold_trace (lo len : Nat) (rng : Nat → Nat)
    (l : List Coordinate) :
    ∀ st, ∃ t : List SwapRec,
      (l.foldl (band_step lo len rng) st).2.2 = st.2.2 ++ t ∧
      List.Sublist (t.map SwapRec.src) l := by
  induction l with
  | nil =>
    intro st
    exact ⟨[], (List.append_nil _).symm, List.nil_sublist _⟩
  | cons c cs ih =>
    intro st
    obtain ⟨t1, ht1, hs1⟩ := ih (band_step lo len rng st c)
    rcases band_step_trace lo len rng st c with h | ⟨d, dnv, h⟩
    · refine ⟨t1, ?_, hs1.cons c⟩
      rw [List.foldl_cons, ht1, h]
    · refine ⟨⟨c, d, dnv⟩ :: t1, ?_, ?_⟩
      · rw [List.foldl_cons, ht1, h]
        simp
      · simpa using hs1.cons₂ c

/-- Membership in the resolved column list. -/
theorem band_xs_mem (lo len off vw : Nat) (ltr : Bool) (x : Nat) :
    x ∈ band_xs lo len off vw ltr ↔
      lo + off ≤ x ∧ x < lo + off + min vw (len - off) := by
  unfold band_xs
  split_ifs <;>
    [skip; rw [List.mem_reverse]] <;>
    · rw [List.mem_range']
      constructor
      · rintro ⟨i, hi, rfl⟩
        omega
      · intro h
        exact ⟨x - (lo + off), by omega, by omega⟩

/-- The resolved column list never repeats a column. -/
theorem band_xs_nodup (lo len off vw : Nat) (ltr : Bool) :
    (band_xs lo len off vw ltr).Nodup := by
  unfold band_xs
  split_ifs
  · exact List.nodup_range' _ _ 1 (by norm_num)
  · exact List.nodup_reverse.mpr (List.nodup_range' _ _ 1 (by norm_num))

/-- Membership in the visit order: exactly the band's columns at
every row. -/
theorem band_coords_mem (lo len off vw h : Nat) (ltr : Bool)
    (c : Coordinate) :
    c ∈ band_coords lo len off vw h ltr ↔
      (lo + off ≤ c.1 ∧ c.1 < lo + off + min vw (len - off) ∧ c.2 < h) := by
  unfold band_coords
  rw [List.mem_flatMap]
  constructor
  · rintro ⟨y, hy, hc⟩
    rw [List.mem_map] at hc
    obtain ⟨x, hx, rfl⟩ := hc
    rw [List.mem_reverse, List.mem_range] at hy
    have := (band_xs_mem lo len off vw ltr x).mp hx
    exact ⟨this.1, this.2, hy⟩
  · rintro ⟨h1, h2, h3⟩
    refine ⟨c.2, ?_, ?_⟩
    · rw [List.mem_reverse, List.mem_range]
      exact h3
    · rw [List.mem_map]
      exact ⟨c.1, (band_xs_mem lo len off vw ltr c.1).mpr ⟨h1, h2⟩, rfl⟩

/-- The visit order never repeats a cell. -/
theorem band_coords_nodup (lo len off vw h : Nat) (ltr : Bool) :
    (band_coords lo len off vw h ltr).Nodup := by
  unfold band_coords
  refine List.nodup_flatMap.mpr ⟨?_, ?_⟩
  · intro y _
    exact (band_xs_nodup lo len off vw ltr).map
      (fun a b hab => by injection hab)
  · have hnd : ((List.range h).reverse).Pairwise (· ≠ ·) :=
      List.nodup_reverse.mpr (List.nodup_range h)
    refine hnd.imp ?_
    intro y1 y2 hne a ha hb
    rw [List.mem_map] at ha hb
    obtain ⟨x1, _, rfl⟩ := ha
    obtain ⟨x2, _, heq⟩ := hb
    exact hne (Prod.mk.injEq .. ▸ heq.symm).2

/-- Regular chunk bands of one phase resolve pairwise disjoint
column ranges. -/
theorem chunk_bands_pairwise (s w : Nat) :
    (chunk_bands s w).Pairwise
      (fun b1 b2 => Disjoint (resolved_cols b1) (resolved_cols b2)) := by
  unfold chunk_bands
  rw [List.pairwise_filterMap]
  refine (List.pairwise_lt_range _).imp ?_
  intro k k2 hlt b hb b2 hb2
  split_ifs at hb with hc1
  · split_ifs at hb2 with hc2
    · rw [Option.mem_some_iff] at hb hb2
      subst hb
      subst hb2
      unfold resolved_cols
      dsimp only
      apply ico_disjoint
      have m1 := min_le_left (2 * VIRTUAL_COLUMNIZED_WIDTH)
        (min (4 * VIRTUAL_COLUMNIZED_WIDTH)
          (w - (s + 4 * VIRTUAL_COLUMNIZED_WIDTH * k)) -
            VIRTUAL_COLUMNIZED_WIDTH)
      simp only [VIRTUAL_COLUMNIZED_WIDTH] at m1 hlt ⊢
      omega
    · cases hb2
  · cases hb

/-- A leading band whose resolved columns end at least `W` before
the chunk region starts is disjoint from all chunk bands. -/
theorem phase_bands_pairwise (s w len2 off2 vw2 : Nat)
    (hsep : off2 + min vw2 (len2 - off2) ≤ s + VIRTUAL_COLUMNIZED_WIDTH) :
    ((⟨0, len2, off2, vw2⟩ : Band) :: chunk_bands s w).Pairwise
      (fun b1 b2 => Disjoint (resolved_cols b1) (resolved_cols b2)) := by
  refine List.Pairwise.cons ?_ (chunk_bands_pairwise s w)
  intro b hb
  obtain ⟨hoff, hvw, hlen, _, hslo, _, _⟩ := chunk_bands_mem hb
  unfold resolved_cols
  apply ico_disjoint
  rw [hoff]
  simp only [VIRTUAL_COLUMNIZED_WIDTH] at hsep hslo ⊢
  omega

/-- C4: the band resolver's visit order is rows from the top index
down to 0 with the band's resolved columns in scan order inside each
row; the visit order has no duplicates and contains exactly the
cells of the resolved columns; each step skips a `Void` or
already-moved cell, on success marks the source moved, marks the
destination moved only if it was not `Void`, then swaps, recording
the swap; and the sources of the recorded swaps form a duplicate-free
subsequence of the visit order, so no cell sources two swaps in one
pass. -/
theorem c4_band_resolver_structure (lo len off vw : Nat) (ltr : Bool)
    (rng : Nat → Nat) (g : Sandbox) :
    band_coords lo len off vw g.height ltr =
      ((List.range g.height).reverse).flatMap (fun y =>
        (if ltr then List.range' (lo + off) (min vw (len - off))
         else (List.range' (lo + off) (min vw (len - off))).reverse).map
          fun x => (x, y))
  ∧ (band_coords lo len off vw g.height ltr).Nodup
  ∧ (∀ c : Coordinate, c ∈ band_coords lo len off vw g.height ltr ↔
      (lo + off ≤ c.1 ∧ c.1 < lo + off + min vw (len - off) ∧
        c.2 < g.height))
  ∧ List.Sublist
      (((virtual_box_tick_aux lo len off vw ltr rng g).2.2).map SwapRec.src)
      (band_coords lo len off vw g.height ltr)
  ∧ (((virtual_box_tick_aux lo len off vw ltr rng g).2.2).map
      SwapRec.src).Nodup
  ∧ (∀ (st : Sandbox × Nat × List SwapRec) (c : Coordinate),
      (get_pixel st.1 lo len c = none → band_step lo len rng st c = st)
    ∧ (∀ p, get_pixel st.1 lo len c = some p →
        p.pixel.pixel_type = .void → band_step lo len rng st c = st)
    ∧ (∀ p, get_pixel st.1 lo len c = some p → p.is_moved = true →
        band_step lo len rng st c = st)
    ∧ (∀ p, get_pixel st.1 lo len c = some p →
        p.pixel.pixel_type ≠ .void → p.is_moved = false →
        tick_move st.1 lo len c (rng st.2.1) = none →
        band_step lo len rng st c = (st.1, st.2.1 + 1, st.2.2))
    ∧ (∀ p d, get_pixel st.1 lo len c = some p →
        p.pixel.pixel_type ≠ .void → p.is_moved = false →
        tick_move st.1 lo len c (rng st.2.1) = some d →
        band_step lo len rng st c =
          (swap_pixels
            (if ((mark_moved_at st.1 c true).cells d).pixel.pixel_type ≠
                .void
              then mark_moved_at (mark_moved_at st.1 c true) d true
              else mark_moved_at st.1 c true) lo len c d,
           st.2.1 + 1,
           st.2.2 ++ [⟨c, d,
             decide
               (((mark_moved_at st.1 c true).cells d).pixel.pixel_type ≠
                 .void)⟩]))) := by
  obtain ⟨t, ht, hs⟩ := band_fold_trace lo len rng
    (band_coords lo len off vw g.height ltr) (g, 0, [])
  have htr : (virtual_box_tick_aux lo len off vw ltr rng g).2.2 = t := by
    unfold virtual_box_tick_aux
    rw [ht]
    exact List.nil_append t
  refine ⟨rfl, band_coords_nodup lo len off vw g.height ltr,
    band_coords_mem lo len off vw g.height ltr, ?_, ?_,
    fun st c => band_step_eq lo len rng st c⟩
  · rw [htr]
    exact hs
  · rw [htr]
    exact (band_coords_nodup lo len off vw g.height ltr).sublist hs

/-- Witness for C4: on the single-column Sand grid the first visited
non-Void cell finds the Down move, marks itself moved, leaves the
Void destination unmarked, swaps, and records the swap. -/
theorem c4_band_resolver_structure_witness :
    band_step 0 1 (fun _ => 0) (sand_column, 0, []) (0, 0) =
      (swap_pixels
        (if ((mark_moved_at sand_column (0, 0) true).cells
              (0, 1)).pixel.pixel_type ≠ .void
          then mark_moved_at (mark_moved_at sand_column (0, 0) true)
            (0, 1) true
          else mark_moved_at sand_column (0, 0) true) 0 1 (0, 0) (0, 1),
       1,
       [⟨(0, 0), (0, 1),
         decide (((mark_moved_at sand_column (0, 0) true).cells
           (0, 1)).pixel.pixel_type ≠ .void)⟩]) :=
  ((c4_band_resolver_structure 0 1 0 1 true (fun _ => 0)
      sand_column).2.2.2.2.2 (sand_column, 0, []) (0, 0)).2.2.2.2
    ⟨.sand, false⟩ (0, 1) rfl (by decide) rfl rfl

/-- C5 counterexample: at width exactly `4W = 20` the scheduler
takes the single whole-grid path, while the claim (skip banding only
when width is smaller than `4W`) requires banded phases there. -/
theorem c5_banding_threshold_counterexample :
    move_plan 20 6 = .whole ⟨0, 20, 0, 20⟩ ∧ ¬ banding_skipped_spec 20 := by
  constructor
  · rfl
  · unfold banding_skipped_spec
    decide

/-- C5 (amended): the drawn offset lies in `[1, 2W]`; widths up to
and including `4W` take the single whole-grid resolver; for wider
grids the pass aborts when `o + 3W` exceeds the width, and otherwise
phase 1 is the worker slice `[0, o+W)` resolving its first `o`
columns followed by `4W`-wide chunks (kept only when wider than `W`)
each resolving its columns `[W, 3W)`, while phase 2 re-splits at
`o + 3W` (leading slice resolving `[o, o+2W)`) followed by the same
kind of `4W` chunks; and the resolved column ranges of each phase
are pairwise disjoint. -/
theorem c5_banding_layout (w od o : Nat)
    (ho : o = 1 + od % (2 * VIRTUAL_COLUMNIZED_WIDTH)) :
    (1 ≤ o ∧ o ≤ 2 * VIRTUAL_COLUMNIZED_WIDTH)
  ∧ (w ≤ 4 * VIRTUAL_COLUMNIZED_WIDTH → move_plan w o = .whole ⟨0, w, 0, w⟩)
  ∧ (4 * VIRTUAL_COLUMNIZED_WIDTH < w →
      w < o + 3 * VIRTUAL_COLUMNIZED_WIDTH → move_plan w o = .abort)
  ∧ (4 * VIRTUAL_COLUMNIZED_WIDTH < w →
      o + 3 * VIRTUAL_COLUMNIZED_WIDTH ≤ w →
      move_plan w o = .banded
        (⟨0, o + VIRTUAL_COLUMNIZED_WIDTH, 0, o⟩ ::
          chunk_bands (o + VIRTUAL_COLUMNIZED_WIDTH) w)
        (⟨0, o + 3 * VIRTUAL_COLUMNIZED_WIDTH, o,
            2 * VIRTUAL_COLUMNIZED_WIDTH⟩ ::
          chunk_bands (o + 3 * VIRTUAL_COLUMNIZED_WIDTH) w)
    ∧ (((⟨0, o + VIRTUAL_COLUMNIZED_WIDTH, 0, o⟩ : Band) ::
          chunk_bands (o + VIRTUAL_COLUMNIZED_WIDTH) w).Pairwise
        fun b1 b2 => Disjoint (resolved_cols b1) (resolved_cols b2))
    ∧ (((⟨0, o + 3 * VIRTUAL_COLUMNIZED_WIDTH, o,
            2 * VIRTUAL_COLUMNIZED_WIDTH⟩ : Band) ::
          chunk_bands (o + 3 * VIRTUAL_COLUMNIZED_WIDTH) w).Pairwise
        fun b1 b2 => Disjoint (resolved_cols b1) (resolved_cols b2))) := by
  have hob : 1 ≤ o ∧ o ≤ 2 * VIRTUAL_COLUMNIZED_WIDTH := by
    have := Nat.mod_lt od
      (show 0 < 2 * VIRTUAL_COLUMNIZED_WIDTH by decide)
    omega
  refine ⟨hob, ?_, ?_, ?_⟩
  · intro h1
    unfold move_plan
    rw [if_pos h1]
  · intro h1 h2
    unfold move_plan
    rw [if_neg (by omega), if_pos h2]
  · intro h1 h2
    refine ⟨?_, ?_, ?_⟩
    · unfold move_plan
      rw [if_neg (by omega), if_neg (by omega)]
    · apply phase_bands_pairwise
      have := min_le_left o (o + VIRTUAL_COLUMNIZED_WIDTH - 0)
      omega
    · apply phase_bands_pairwise
      have := min_le_left (2 * VIRTUAL_COLUMNIZED_WIDTH)
        (o + 3 * VIRTUAL_COLUMNIZED_WIDTH - o)
      simp only [VIRTUAL_COLUMNIZED_WIDTH] at *
      omega

/-- Witness for C5 at width 30 and offset draw 0 (so `o = 1`): the
plan is the two banded phases. -/
theorem c5_banding_layout_witness :
    move_plan 30 1 = .banded
      (⟨0, 6, 0, 1⟩ :: chunk_bands 6 30)
      (⟨0, 16, 1, 10⟩ :: chunk_bands 16 30) :=
  ((c5_banding_layout 30 0 1 rfl).2.2.2 (by decide) (by decide)).1

end Rustfall
